import Mathlib

/-!
Verification of the core logic of `tmb_reporter_simple.py` (metinciris/tmb).

Python strings are modelled as `List Char`; Python `None` / absent values and
the IEEE NaN produced by `safe_float` (which the program only ever tests with
`math.isnan` before comparing) are modelled as `Option.none`; Python floats
that carry actual data (QUAL, VAF, panel_mb, TMB) are modelled as exact
rationals `ℚ`.
-/

namespace TMB

/-- Convert a Lean string literal to the `List Char` representation used for
Python strings throughout this development. -/
def pystr (s : String) : List Char := s.data

/-- Python `str.split(sep)` for a single-character separator: splits on every
occurrence, keeping empty segments, and returns `[[]]` on the empty string. -/
def splitOnChar (sep : Char) : List Char → List (List Char)
  | [] => [[]]
  | c :: rest =>
    if c = sep then [] :: splitOnChar sep rest
    else
      match splitOnChar sep rest with
      | [] => [[c]]
      | g :: gs => (c :: g) :: gs

/-- Strip whitespace from both ends, as Python `str.strip()` does. -/
def stripWs (cs : List Char) : List Char :=
  ((cs.dropWhile Char.isWhitespace).reverse.dropWhile Char.isWhitespace).reverse

/-- Numeric value of a list of ASCII digits (most significant first). -/
def digitsVal (cs : List Char) : Nat :=
  cs.foldl (fun acc c => acc * 10 + (c.toNat - '0'.toNat)) 0

/-- True when the list is a non-empty run of ASCII digits; this models both
`re.fullmatch(r"\d+", x)` and the digit part of Python `int`. -/
def isAsciiDigits (cs : List Char) : Bool :=
  !cs.isEmpty && cs.all Char.isDigit

/-- Model of Python `int(s)`: optional surrounding whitespace, optional sign,
then a non-empty digit run; `none` models the raised `ValueError`.  (CPython
also accepts digit-group underscores and non-ASCII digits; no input in this
development uses them.) -/
def pyInt (cs : List Char) : Option Int :=
  match stripWs cs with
  | '+' :: rest => if isAsciiDigits rest then some (digitsVal rest : Int) else none
  | '-' :: rest => if isAsciiDigits rest then some (-(digitsVal rest : Int)) else none
  | rest => if isAsciiDigits rest then some (digitsVal rest : Int) else none

/-- Unsigned part of Python `float(s)` for plain decimal notation
`digits[.digits]` / `.digits` / `digits.`; `none` models `ValueError`.
(Exponents and the `inf`/`nan` literals are not modelled; the program's QUAL
fields are plain decimals.) -/
def pyFloatCore (cs : List Char) : Option ℚ :=
  match splitOnChar '.' cs with
  | [intPart] => if isAsciiDigits intPart then some (digitsVal intPart : ℚ) else none
  | [intPart, fracPart] =>
    if (intPart.isEmpty || intPart.all Char.isDigit) &&
       (fracPart.isEmpty || fracPart.all Char.isDigit) &&
       (!intPart.isEmpty || !fracPart.isEmpty) then
      some ((digitsVal intPart : ℚ) + (digitsVal fracPart : ℚ) / ((10 : ℚ) ^ fracPart.length))
    else none
  | _ => none

/-- Model of Python `float(s)`: optional whitespace and sign around
`pyFloatCore`. -/
def pyFloat (cs : List Char) : Option ℚ :=
  match stripWs cs with
  | '+' :: rest => pyFloatCore rest
  | '-' :: rest => (pyFloatCore rest).map (fun q => -q)
  | rest => pyFloatCore rest

/-- `safe_float` from the source: `float(x)`, with NaN on failure.  The NaN
default is modelled as `none` — the program only ever asks `math.isnan` of it
before any comparison. -/
def safe_float (cs : List Char) : Option ℚ := pyFloat cs

/-- `is_homopolymer` (tmb_reporter_simple.py lines 41–45): empty string is not
a homopolymer; otherwise `len(set(seq)) == 1 and len(seq) >= 3`, with the set
cardinality rendered as the length of `List.dedup`. -/
def is_homopolymer (seq : List Char) : Bool :=
  if seq = [] then false
  else decide (seq.dedup.length = 1 ∧ 3 ≤ seq.length)

/-- `is_dinuc_repeat` (lines 47–55): strings shorter than 4 are never flagged;
otherwise the string must equal its first two characters (`unit`) repeated
`len // 2` times followed by `unit[:len % 2]`. -/
def is_dinuc_repeat (seq : List Char) : Bool :=
  if seq = [] ∨ seq.length < 4 then false
  else
    decide (seq = (List.replicate (seq.length / 2) (seq.take 2)).flatten
                    ++ (seq.take 2).take (seq.length % 2))

/-- Python `str.upper()` restricted to ASCII, which is all the program feeds
it (allele strings). -/
def toUpperL (cs : List Char) : List Char := cs.map Char.toUpper

/-- `looks_like_str_artifact` (lines 57–66): uppercase `ref` and `alt`, split
`alt` on commas when it contains one, and flag if any of `ref` and the alt
alleles is a homopolymer or a dinucleotide repeat.  (The Python `ref or ""`
guard is vacuous here: both arguments are always strings.) -/
def looks_like_str_artifact (ref alt : List Char) : Bool :=
  let refU := toUpperL ref
  let altU := toUpperL alt
  let alts := if altU.contains ',' then splitOnChar ',' altU else [altU]
  (refU :: alts).any (fun a => is_homopolymer a || is_dinuc_repeat a)

/-- Result dictionary of `parse_format`, one field per key. -/
structure FormatResult where
  GT : Option (List Char)
  DP : Option Int
  CLCAD2 : Option (List Char)
  ALT_AD_MAX : Option Int
  VAF : Option ℚ
deriving Repr, DecidableEq

/-- The all-`None` dictionary `parse_format` starts from. -/
def FormatResult.init : FormatResult := ⟨none, none, none, none, none⟩

/-- Python `s.split(":") if s else []`: the falsy guard maps both `None` and
the empty string to `[]`. -/
def pySplitColon (s : Option (List Char)) : List (List Char) :=
  match s with
  | some f => if f = [] then [] else splitOnChar ':' f
  | none => []

/-- Lookup in `dict(zip(keys, vals))`: the last binding of a key wins. -/
def dictGet (kvs : List (List Char × List Char)) (k : List Char) : Option (List Char) :=
  ((kvs.filter (fun p => p.1 == k)).getLast?).map Prod.snd

/-- The CLCAD2 tail of `parse_format` (lines 90–100): record the raw `ad`
string, then, when it is non-empty and not ".", split it on commas, drop empty
segments, and if at least two segments remain take the numeric ones after the
first as alt depths; when some exist, record their maximum and, for a positive
depth, the fraction `alt_max / dp`.  No step here can raise. -/
def parseFormatRest (gt : Option (List Char)) (dp : Option Int)
    (adS : Option (List Char)) : FormatResult :=
  let base : FormatResult := ⟨gt, dp, adS, none, none⟩
  match adS with
  | none => base
  | some ad =>
    if ad = [] ∨ ad = pystr "." then base
    else
      let parts := (splitOnChar ',' ad).filter (fun p => !p.isEmpty)
      if parts.length < 2 then base
      else
        let altDepths := (parts.drop 1).filterMap
          (fun x => if isAsciiDigits x then some (digitsVal x : Int) else none)
        match altDepths.max? with
        | none => base
        | some altMax =>
          let vaf : Option ℚ :=
            match dp with
            | some d => if d ≠ 0 ∧ 0 < d then some ((altMax : ℚ) / (d : ℚ)) else none
            | none => none
          { base with ALT_AD_MAX := some altMax, VAF := vaf }

/-- `parse_format` (lines 74–103).  The keys of the FORMAT string are zipped
with the sample values; `GT` is recorded first; then
`result["DP"] = int(dp) if dp is not None and dp != "." else None` — a
non-numeric `dp` raises `ValueError` inside the `try`, so the function returns
the partially built result whose only assigned field is `GT`.  Otherwise the
CLCAD2 tail runs. -/
def parse_format (fmt sample : Option (List Char)) : FormatResult :=
  let keys := pySplitColon fmt
  let vals := pySplitColon sample
  let m := List.zip keys vals
  let gt := dictGet m (pystr "GT")
  let dpS := dictGet m (pystr "DP")
  let adS := dictGet m (pystr "CLCAD2")
  match dpS with
  | some d =>
    if d = pystr "." then parseFormatRest gt none adS
    else
      match pyInt d with
      | none => { FormatResult.init with GT := gt }
      | some dpv => parseFormatRest gt (some dpv) adS
  | none => parseFormatRest gt none adS

/-- One parsed data row of a VCF file, as the dictionaries built on lines
175–180 of the source.  `qual` is the `safe_float` result (`none` = NaN);
`dp`, `ad_alt_max`, `vaf` come from `parse_format` (`none` = Python `None`). -/
structure Variant where
  sample : List Char
  chrom : List Char
  pos : Int
  ref : List Char
  alt : List Char
  qual : Option ℚ
  filt : List Char
  dp : Option Int
  ad_alt_max : Option Int
  vaf : Option ℚ
deriving Repr, DecidableEq

/-- The run configuration (`CONFIG` merged with CLI overrides).  `panel_mb` is
a Python float whose NaN is modelled as `none`; the string-valued entries
(panel name, reference build) play no role in the verified logic. -/
structure Config where
  panel_mb : Option ℚ
  qual_min : ℚ
  dp_min : Int
  alt_min : Int
  vaf_min : ℚ
  require_pass : Bool
  drop_str_artifacts : Bool
deriving Repr, DecidableEq

/-- The fixed defaults of `CONFIG` (lines 27–37): panel 1.20 Mb, QUAL ≥ 50.0,
DP ≥ 100, ALT ≥ 5, VAF ≥ 0.05, PASS required, STR filter on. -/
def defaultConfig : Config :=
  ⟨some (6 / 5), 50, 100, 5, 1 / 20, true, true⟩

/-- A configuration whose panel size is the (falsy) float `0.0` and whose
rational fields are all kernel-evaluable literals; used to exercise the
pipeline on concrete inputs. -/
def cfgPanelZero : Config := ⟨some 0, 50, 100, 5, 0, true, true⟩

/-- Rendering of a number interpolated into an f-string reason such as
`f"QUAL<{cfg['qual_min']}"`; the exact CPython float formatting is abstracted
by `toString` on the rational. -/
def fmtQ (q : ℚ) : List Char := (toString q).data

/-- Rendering of an integer threshold inside an f-string reason. -/
def fmtI (i : Int) : List Char := (toString i).data

/-- `keep_variant` (lines 186–217): the ordered, short-circuiting rule chain.
Rule order: FILTER, the four missing-field checks, the four thresholds, the
STR-artifact heuristic; first failure decides the reason. -/
def keep_variant (v : Variant) (cfg : Config) : Bool × List Char :=
  if cfg.require_pass ∧ v.filt ≠ pystr "." ∧ v.filt ≠ pystr "PASS" then
    (false, pystr "FILTER!=PASS")
  else
    match v.qual with
    | none => (false, pystr "QUAL_missing")
    | some q =>
      match v.dp with
      | none => (false, pystr "DP_missing")
      | some dp =>
        match v.ad_alt_max with
        | none => (false, pystr "AD_alt_missing")
        | some ad =>
          match v.vaf with
          | none => (false, pystr "VAF_missing")
          | some vaf =>
            if q < cfg.qual_min then (false, pystr "QUAL<" ++ fmtQ cfg.qual_min)
            else if dp < cfg.dp_min then (false, pystr "DP<" ++ fmtI cfg.dp_min)
            else if ad < cfg.alt_min then (false, pystr "ALT<" ++ fmtI cfg.alt_min)
            else if vaf < cfg.vaf_min then (false, pystr "VAF<" ++ fmtQ cfg.vaf_min)
            else if cfg.drop_str_artifacts ∧ looks_like_str_artifact v.ref v.alt then
              (false, pystr "STR_artifact")
            else (true, pystr "OK")

/-- `compute_tmb` (lines 219–222): `kept_count / panel_mb` when `panel_mb` is
truthy and positive, NaN (here `none`) otherwise; a NaN `panel_mb` input is
truthy in Python but fails `> 0`, so it also lands in the `none` branch. -/
def compute_tmb (kept_count : Nat) (panel_mb : Option ℚ) : Option ℚ :=
  match panel_mb with
  | some x => if x ≠ 0 ∧ 0 < x then some ((kept_count : ℚ) / x) else none
  | none => none

/-- The TMB line of `make_text_report` (line 243): a numeric rendering when
the TMB is not NaN, the fixed not-computable message otherwise (the `:.2f`
formatting is abstracted by `fmtQ`). -/
def tmb_line (tmb : Option ℚ) : List Char :=
  match tmb with
  | some t => pystr "TMB (varyant/Mb): " ++ fmtQ t
  | none => pystr "TMB: hesaplanamadi (panel_mb eksik)"

/-- Errors `read_vcf_variants` can raise: `FileNotFoundError(path)` and the
two `ValueError`s (missing header, missing mandatory columns). -/
inductive ReadErr
  | fileNotFound
  | formatError (msg : List Char)
deriving Repr, DecidableEq

/-- Decidable equality on `Except`, so that reader results can be evaluated
by `decide` on concrete inputs. -/
instance exceptDecEq {ε α : Type} [DecidableEq ε] [DecidableEq α] :
    DecidableEq (Except ε α) := fun a b =>
  match a, b with
  | .ok x, .ok y =>
    if h : x = y then isTrue (h ▸ rfl) else isFalse (fun hc => h (Except.ok.inj hc))
  | .error x, .error y =>
    if h : x = y then isTrue (h ▸ rfl) else isFalse (fun hc => h (Except.error.inj hc))
  | .ok _, .error _ => isFalse (fun hc => Except.noConfusion hc)
  | .error _, .ok _ => isFalse (fun hc => Except.noConfusion hc)

/-- Python `str.lstrip("#")`: drop every leading `#`. -/
def lstripHash : List Char → List Char
  | '#' :: rest => lstripHash rest
  | cs => cs

/-- Python `line.rstrip("\n")`: drop trailing newlines (identity here, since
lines are modelled without their terminator, but kept for fidelity). -/
def rstripNl (cs : List Char) : List Char :=
  (cs.reverse.dropWhile (fun c => c = '\n')).reverse

/-- The header-locating loop (lines 130–142): skip `##` lines, stop at the
first line starting with `#CHROM` (the `break` sits inside that branch, so
other lines are merely passed over). -/
def findHeader : List (List Char) → Option (List Char)
  | [] => none
  | l :: rest =>
    if (pystr "##").isPrefixOf l then findHeader rest
    else if (pystr "#CHROM").isPrefixOf l then some l
    else findHeader rest

/-- Column names of the header line: `line.strip().lstrip("#").split("\t")`. -/
def headerColsOf (l : List Char) : List (List Char) :=
  splitOnChar '\t' (lstripHash (stripWs l))

/-- The `required` list of line 136 — note that it contains `ID` as well. -/
def requiredCols : List (List Char) :=
  [pystr "CHROM", pystr "POS", pystr "ID", pystr "REF", pystr "ALT",
   pystr "QUAL", pystr "FILTER"]

/-- Sample-column detection (lines 140–141): when `FORMAT` occurs in the
header (`list.index` = first occurrence) and a column follows it, the sample
name is the last header column. -/
def sampleNameOf (headerCols : List (List Char)) : Option (List Char) :=
  match headerCols.findIdx? (fun c => c == pystr "FORMAT") with
  | some i => if i + 1 < headerCols.length then headerCols.getLast? else none
  | none => none

/-- Lookup helper for the column-index dictionary: the index of the last
occurrence of `name` in the remaining columns, counting from `k`. -/
def colIdxFrom (name : List Char) : List (List Char) → Nat → Option Nat
  | [], _ => none
  | c :: rest, k =>
    match colIdxFrom name rest (k + 1) with
    | some j => some j
    | none => if c == name then some k else none

/-- The column-index dictionary `{name: i}` of line 156: a later occurrence of
a duplicated name overrides an earlier one, so the lookup returns the last
index carrying the name. -/
def colIdx (headerCols : List (List Char)) (name : List Char) : Option Nat :=
  colIdxFrom name headerCols 0

/-- Python `a or b` on an optional string: `b` when `a` is `None` or empty. -/
def pyOr (a : Option (List Char)) (b : List Char) : List Char :=
  match a with
  | some s => if s = [] then b else s
  | none => b

/-- `os.path.basename` on a POSIX path: the segment after the last `/`. -/
def basename (p : List Char) : List Char :=
  (splitOnChar '/' p).getLastD []

/-- Extraction of one data line (the `try` body, lines 155–167): split on
tabs, look up every referenced column, parse POS with `int` and QUAL with
`safe_float`; any out-of-range index or failed POS parse raises and the line
is skipped (`none`).  FILTER falls back to "." and FORMAT/sample to `None`
when the header lacks them. -/
def parseDataLine (headerCols : List (List Char)) (sampleName : Option (List Char))
    (sampleFallback : List Char) (line : List Char) : Option Variant :=
  let parts := splitOnChar '\t' (rstripNl line)
  (colIdx headerCols (pystr "CHROM")).bind fun iChrom =>
  parts[iChrom]?.bind fun chrom =>
  (colIdx headerCols (pystr "POS")).bind fun iPos =>
  parts[iPos]?.bind fun posS =>
  (pyInt posS).bind fun pos =>
  (colIdx headerCols (pystr "REF")).bind fun iRef =>
  parts[iRef]?.bind fun ref =>
  (colIdx headerCols (pystr "ALT")).bind fun iAlt =>
  parts[iAlt]?.bind fun alt =>
  (colIdx headerCols (pystr "QUAL")).bind fun iQual =>
  parts[iQual]?.bind fun qualS =>
  (match colIdx headerCols (pystr "FILTER") with
    | some i => parts[i]?
    | none => some (pystr ".")).bind fun filt =>
  (match colIdx headerCols (pystr "FORMAT") with
    | some i => parts[i]?.map (fun x => some x)
    | none => some none).bind fun fmt =>
  (match sampleName with
    | some sn => (colIdx headerCols sn).bind fun i => parts[i]?.map (fun x => some x)
    | none => some none).bind fun sampleCol =>
  let parsed : FormatResult :=
    match sampleName with
    | some _ => parse_format fmt sampleCol
    | none => FormatResult.init
  some { sample := pyOr sampleName sampleFallback
         chrom := chrom, pos := pos, ref := ref, alt := alt
         qual := safe_float qualS, filt := filt
         dp := parsed.DP, ad_alt_max := parsed.ALT_AD_MAX, vaf := parsed.VAF }

/-- `read_vcf_variants` (lines 122–182).  The filesystem is a parameter:
`file = none` models a path that fails the `os.path.exists` check, and
`file = some lines` gives the file's lines without their trailing newline.
The second pass feeds every line that is non-empty and does not start with
`#` to `parseDataLine`, silently dropping the lines it rejects. -/
def read_vcf_variants (vcfPath : List Char) (file : Option (List (List Char))) :
    Except ReadErr (List Char × List Variant) :=
  match file with
  | none => .error .fileNotFound
  | some lines =>
    match findHeader lines with
    | none => .error (.formatError (pystr "VCF basligi (#CHROM ...) bulunamadi."))
    | some hline =>
      let headerCols := headerColsOf hline
      if requiredCols.all (fun c => headerCols.contains c) then
        let sampleName := sampleNameOf headerCols
        let fallback := basename vcfPath
        let variants := lines.filterMap (fun l =>
          if l = [] ∨ (pystr "#").isPrefixOf l then none
          else parseDataLine headerCols sampleName fallback l)
        .ok (pyOr sampleName fallback, variants)
      else
        .error (.formatError
          (pystr "Beklenen VCF sutunlari bulunamadi (#CHROM .. QUAL .. FILTER)."))

/-- One classified row: the variant together with its keep flag and reason,
as appended to `kept_rows` / `drop_rows` in `process_vcf`. -/
structure ClassifiedRow where
  v : Variant
  kept : Bool
  reason : List Char
deriving Repr, DecidableEq

/-- The classification loop of `process_vcf` (lines 277–297): each variant is
classified once and appended to exactly one of the two row lists, in input
order. -/
def process_rows : List Variant → Config → List ClassifiedRow × List ClassifiedRow
  | [], _ => ([], [])
  | v :: vs, cfg =>
    let rest := process_rows vs cfg
    let kr := keep_variant v cfg
    if kr.1 then (⟨v, kr.1, kr.2⟩ :: rest.1, rest.2)
    else (rest.1, ⟨v, kr.1, kr.2⟩ :: rest.2)

/-- Result of `process_vcf` for one file: sample name, kept and dropped rows,
and the TMB handed back by `make_text_report` (which calls `compute_tmb` on
the kept count). -/
structure ProcessResult where
  sample : List Char
  kept : List ClassifiedRow
  dropped : List ClassifiedRow
  tmb : Option ℚ
deriving Repr, DecidableEq

/-- `process_vcf` (lines 275–299), with the text-report file write abstracted
away: read, classify every variant, compute the TMB of the kept count. -/
def process_vcf (vcfPath : List Char) (file : Option (List (List Char)))
    (cfg : Config) : Except ReadErr ProcessResult :=
  match read_vcf_variants vcfPath file with
  | .error e => .error e
  | .ok sv =>
    let rows := process_rows sv.2 cfg
    .ok ⟨sv.1, rows.1, rows.2, compute_tmb rows.1.length cfg.panel_mb⟩

/-- Python `round(x, 3)` is modelled as round-half-up to thousandths; CPython
rounds half to even, which differs only on exact half-thousandths and is never
exercised by the claims. -/
def round3 (x : ℚ) : ℚ := (round (x * 1000) : ℤ) / 1000

/-- One row of the `summary` sheet as built in `main` (lines 361–389),
restricted to the fields that vary per file; `error` is only populated on the
exception path, where the counts and TMB stay `None`. -/
structure SummaryRow where
  sample : List Char
  kept_variants : Option Nat
  dropped_variants : Option Nat
  tmb_variants_per_mb : Option ℚ
  error : Option (List Char)
deriving Repr, DecidableEq

/-- `str(e)` of the two exception kinds: `FileNotFoundError(path)` prints the
path, `ValueError(msg)` prints the message. -/
def errText (path : List Char) : ReadErr → List Char
  | .fileNotFound => path
  | .formatError m => m

/-- The per-file body of the batch loop in `main` (lines 356–389): a
successful `process_vcf` yields a counts-and-TMB row, a raised error is caught
and becomes a row with the basename, absent counts and TMB, and the error
text. -/
def summaryRowFor (cfg : Config) (input : List Char × Option (List (List Char))) :
    SummaryRow :=
  match process_vcf input.1 input.2 cfg with
  | .ok r =>
    ⟨r.sample, some r.kept.length, some r.dropped.length, r.tmb.map round3, none⟩
  | .error e =>
    ⟨basename input.1, none, none, none, some (errText input.1 e)⟩

/-- The batch loop of `main` over all input files: one summary row per file,
in order; a failure for one file only affects that file's row. -/
def main_loop (cfg : Config) (inputs : List (List Char × Option (List (List Char)))) :
    List SummaryRow :=
  inputs.map (summaryRowFor cfg)

/-!
Spec-side definitions.  The definitions below transcribe the wording of the
specification (not the code); the claim theorems compare them with the
translations of the source above.
-/

/-- Homopolymer condition as the spec words it: non-empty, all characters
identical, length at least 3. -/
def homopolymerSpec (s : List Char) : Prop :=
  s ≠ [] ∧ (∀ a ∈ s, ∀ b ∈ s, a = b) ∧ 3 ≤ s.length

/-- Dinucleotide-repeat condition as the spec words it: length at least 4 and
the string equals its first two characters repeated to fill the length, with
one trailing partial repeat when the length is odd. -/
def dinucSpec (s : List Char) : Prop :=
  4 ≤ s.length ∧
  s = (List.replicate (s.length / 2) (s.take 2)).flatten
        ++ (s.take 2).take (s.length % 2)

/-- The classifier's rule list in the spec's fixed order: each entry pairs the
rule's failure condition with its reason string. -/
def ruleListSpec (v : Variant) (cfg : Config) : List (Bool × List Char) :=
  [(decide (cfg.require_pass = true ∧ v.filt ≠ pystr "." ∧ v.filt ≠ pystr "PASS"),
      pystr "FILTER!=PASS"),
   (v.qual.isNone, pystr "QUAL_missing"),
   (v.dp.isNone, pystr "DP_missing"),
   (v.ad_alt_max.isNone, pystr "AD_alt_missing"),
   (v.vaf.isNone, pystr "VAF_missing"),
   (v.qual.any (fun q => decide (q < cfg.qual_min)), pystr "QUAL<" ++ fmtQ cfg.qual_min),
   (v.dp.any (fun d => decide (d < cfg.dp_min)), pystr "DP<" ++ fmtI cfg.dp_min),
   (v.ad_alt_max.any (fun a => decide (a < cfg.alt_min)), pystr "ALT<" ++ fmtI cfg.alt_min),
   (v.vaf.any (fun w => decide (w < cfg.vaf_min)), pystr "VAF<" ++ fmtQ cfg.vaf_min),
   (decide (cfg.drop_str_artifacts = true ∧ looks_like_str_artifact v.ref v.alt = true),
      pystr "STR_artifact")]

/-- Classification as the spec words it: the reason of the first failing rule,
or keep with "OK" when no rule fails. -/
def classifySpec (v : Variant) (cfg : Config) : Bool × List Char :=
  match (ruleListSpec v cfg).find? Prod.fst with
  | some r => (false, r.2)
  | none => (true, pystr "OK")

/-- The raw CLCAD2 string that the decoder's key/value zip associates to the
sample, recomputed from the decoder's inputs. -/
def adStringOf (fmt sample : Option (List Char)) : Option (List Char) :=
  dictGet (List.zip (pySplitColon fmt) (pySplitColon sample)) (pystr "CLCAD2")

/-- Alternate-allele depths as the spec words them: the numeric entries after
the first of the comma-separated allele-depth string (empty segments ignored,
at least two segments required so that a reference entry exists). -/
def altDepthsSpec (ad : Option (List Char)) : List Int :=
  match ad with
  | none => []
  | some a =>
    if a = [] ∨ a = pystr "." then []
    else
      let parts := (splitOnChar ',' a).filter (fun p => !p.isEmpty)
      if parts.length < 2 then []
      else (parts.drop 1).filterMap
        (fun x => if isAsciiDigits x then some (digitsVal x : Int) else none)

/-- The decoder's parse-failure condition: the DP entry exists, is not ".",
and does not parse as an integer — exactly the situation in which the Python
`int(dp)` raises inside the `try`. -/
def parseRaises (fmt sample : Option (List Char)) : Bool :=
  match dictGet (List.zip (pySplitColon fmt) (pySplitColon sample)) (pystr "DP") with
  | some d => if d = pystr "." then false else (pyInt d).isNone
  | none => false

/-!
Helper lemmas shared by the claim theorems.
-/

/-- A list has exactly one distinct element iff it is non-empty and all of its
elements coincide. -/
lemma dedup_length_eq_one_iff {s : List Char} :
    s.dedup.length = 1 ↔ s ≠ [] ∧ ∀ a ∈ s, ∀ b ∈ s, a = b := by
  constructor
  · intro h
    obtain ⟨a, ha⟩ := List.length_eq_one.mp h
    refine ⟨?_, ?_⟩
    · rintro rfl
      simp at ha
    · intro x hx y hy
      have hx' : x ∈ s.dedup := List.mem_dedup.mpr hx
      have hy' : y ∈ s.dedup := List.mem_dedup.mpr hy
      rw [ha, List.mem_singleton] at hx' hy'
      rw [hx', hy']
  · rintro ⟨hne, hall⟩
    obtain ⟨c, t, rfl⟩ := List.exists_cons_of_ne_nil hne
    have hrep : c :: t = List.replicate (t.length + 1) c :=
      List.eq_replicate_iff.mpr
        ⟨by simp, fun b hb => hall b hb c (List.mem_cons_self c t)⟩
    rw [hrep, List.replicate_dedup (Nat.succ_ne_zero _)]
    rfl

/-- The CLCAD2 tail never changes the depth field it is given. -/
lemma parseFormatRest_DP (gt : Option (List Char)) (dp : Option Int)
    (adS : Option (List Char)) : (parseFormatRest gt dp adS).DP = dp := by
  unfold parseFormatRest
  cases adS with
  | none => rfl
  | some a =>
    dsimp only
    by_cases h1 : a = [] ∨ a = pystr "."
    · rw [if_pos h1]
    · rw [if_neg h1]
      split
      · rfl
      · split
        · rfl
        · rfl

/-- The CLCAD2 tail records exactly the maximum of the numeric alternate
depths (absent when there are none). -/
lemma parseFormatRest_ALT (gt : Option (List Char)) (dp : Option Int)
    (adS : Option (List Char)) :
    (parseFormatRest gt dp adS).ALT_AD_MAX = (altDepthsSpec adS).max? := by
  unfold parseFormatRest altDepthsSpec
  cases adS with
  | none => rfl
  | some a =>
    dsimp only
    by_cases h1 : a = [] ∨ a = pystr "."
    · rw [if_pos h1, if_pos h1]
      rfl
    · rw [if_neg h1, if_neg h1]
      by_cases h2 : ((splitOnChar ',' a).filter (fun p => !p.isEmpty)).length < 2
      · rw [if_pos h2, if_pos h2]
        rfl
      · rw [if_neg h2, if_neg h2]
        cases hmax : ((((splitOnChar ',' a).filter (fun p => !p.isEmpty)).drop 1).filterMap
            (fun x => if isAsciiDigits x then some ((digitsVal x : Int)) else none)).max? with
        | none => simp [hmax]
        | some m => simp [hmax]

/-- The CLCAD2 tail produces the fraction `alt_max / dp` exactly when a
maximum numeric alternate depth exists and the given depth is positive. -/
lemma parseFormatRest_VAF (gt : Option (List Char)) (dp : Option Int)
    (adS : Option (List Char)) :
    (parseFormatRest gt dp adS).VAF =
      (match dp, (altDepthsSpec adS).max? with
       | some d, some m => if d ≠ 0 ∧ 0 < d then some ((m : ℚ) / (d : ℚ)) else none
       | _, _ => none) := by
  unfold parseFormatRest altDepthsSpec
  cases adS with
  | none => cases dp <;> rfl
  | some a =>
    dsimp only
    by_cases h1 : a = [] ∨ a = pystr "."
    · rw [if_pos h1, if_pos h1]
      cases dp <;> rfl
    · rw [if_neg h1, if_neg h1]
      by_cases h2 : ((splitOnChar ',' a).filter (fun p => !p.isEmpty)).length < 2
      · rw [if_pos h2, if_pos h2]
        cases dp <;> rfl
      · rw [if_neg h2, if_neg h2]
        cases hmax : ((((splitOnChar ',' a).filter (fun p => !p.isEmpty)).drop 1).filterMap
            (fun x => if isAsciiDigits x then some ((digitsVal x : Int)) else none)).max? with
        | none => simp [hmax]
        | some m =>
          simp only [hmax]
          cases dp <;> rfl

/-- The decoder either reaches the CLCAD2 tail with some depth value, or
returns early (exception path) with only the genotype populated. -/
lemma parse_format_cases (fmt sample : Option (List Char)) :
    (∃ dp, parse_format fmt sample =
      parseFormatRest
        (dictGet (List.zip (pySplitColon fmt) (pySplitColon sample)) (pystr "GT"))
        dp (adStringOf fmt sample)) ∨
    parse_format fmt sample =
      { FormatResult.init with
          GT := dictGet (List.zip (pySplitColon fmt) (pySplitColon sample)) (pystr "GT") } := by
  unfold parse_format adStringOf
  dsimp only
  cases dictGet (List.zip (pySplitColon fmt) (pySplitColon sample)) (pystr "DP") with
  | none => exact .inl ⟨none, rfl⟩
  | some d =>
    dsimp only
    by_cases hdot : d = pystr "."
    · exact .inl ⟨none, by rw [if_pos hdot]⟩
    · rw [if_neg hdot]
      cases pyInt d with
      | none => exact .inr rfl
      | some dpv => exact .inl ⟨some dpv, rfl⟩

/-- Unfolded shape of the reader on an existing file. -/
lemma read_vcf_shape (path : List Char) (lines : List (List Char)) :
    read_vcf_variants path (some lines) =
      (match findHeader lines with
       | none => .error (.formatError (pystr "VCF basligi (#CHROM ...) bulunamadi."))
       | some hline =>
         if requiredCols.all (fun c => (headerColsOf hline).contains c) then
           .ok (pyOr (sampleNameOf (headerColsOf hline)) (basename path),
             lines.filterMap (fun l =>
               if l = [] ∨ (pystr "#").isPrefixOf l then none
               else parseDataLine (headerColsOf hline)
                 (sampleNameOf (headerColsOf hline)) (basename path) l))
         else .error (.formatError
           (pystr "Beklenen VCF sutunlari bulunamadi (#CHROM .. QUAL .. FILTER)."))) :=
  rfl

/-- The dictionary lookup only returns indices below the end of the scanned
columns. -/
lemma colIdxFrom_lt {name : List Char} {hs : List (List Char)} {k j : Nat}
    (h : colIdxFrom name hs k = some j) : j < k + hs.length := by
  induction hs generalizing k with
  | nil => simp [colIdxFrom] at h
  | cons c rest ih =>
    unfold colIdxFrom at h
    cases hrec : colIdxFrom name rest (k + 1) with
    | some j2 =>
      rw [hrec] at h
      cases h
      have := ih hrec
      simp only [List.length_cons]
      omega
    | none =>
      rw [hrec] at h
      by_cases hc : (c == name) = true
      · rw [if_pos hc] at h
        cases h
        simp only [List.length_cons]
        omega
      · rw [if_neg hc] at h
        cases h

/-- A column index found in the header is a valid header position. -/
lemma colIdx_lt {hs : List (List Char)} {name : List Char} {j : Nat}
    (h : colIdx hs name = some j) : j < hs.length := by
  unfold colIdx at h
  have := colIdxFrom_lt h
  omega

/-- The dictionary lookup succeeds for every name present in the columns. -/
lemma colIdxFrom_isSome {name : List Char} {hs : List (List Char)}
    (h : name ∈ hs) (k : Nat) : (colIdxFrom name hs k).isSome := by
  induction hs generalizing k with
  | nil => cases h
  | cons c rest ih =>
    unfold colIdxFrom
    cases hrec : colIdxFrom name rest (k + 1) with
    | some j => simp
    | none =>
      rcases List.mem_cons.mp h with rfl | hmem
      · simp
      · have := ih hmem (k + 1)
        rw [hrec] at this
        simp at this

/-- The column dictionary contains every header-column name. -/
lemma colIdx_isSome {name : List Char} {hs : List (List Char)} (h : name ∈ hs) :
    (colIdx hs name).isSome :=
  colIdxFrom_isSome h 0

/-- A `contains` fact on the header yields membership. -/
lemma contains_true_mem {c : List Char} {hs : List (List Char)}
    (h : hs.contains c = true) : c ∈ hs := by
  simpa using h

/-- When the header lacks a FORMAT column, or its first FORMAT column is the
last column, no sample name is detected. -/
lemma sampleNameOf_eq_none {hc : List (List Char)}
    (hcond : (pystr "FORMAT") ∉ hc ∨
      (∀ i, hc.findIdx? (fun c => c == pystr "FORMAT") = some i → ¬(i + 1 < hc.length))) :
    sampleNameOf hc = none := by
  unfold sampleNameOf
  cases hidx : hc.findIdx? (fun c => c == pystr "FORMAT") with
  | none => rfl
  | some i =>
    dsimp only
    rcases hcond with hnot | hall
    · exfalso
      have hnone : hc.findIdx? (fun c => c == pystr "FORMAT") = none :=
        List.findIdx?_eq_none_iff.mpr (fun x hx =>
          beq_eq_false_iff_ne.mpr (fun hxe => hnot (hxe ▸ hx)))
      rw [hnone] at hidx
      cases hidx
    · rw [if_neg (hall i hidx)]

/-- A record extracted with no sample column carries the fallback sample name
and absent depth, alternate depth and fraction. -/
lemma parseDataLine_sampleNone {hc : List (List Char)} {fb line : List Char}
    {v : Variant} (h : parseDataLine hc none fb line = some v) :
    v.sample = fb ∧ v.dp = none ∧ v.ad_alt_max = none ∧ v.vaf = none := by
  unfold parseDataLine at h
  simp only [Option.bind_eq_some, Option.some.injEq] at h
  obtain ⟨iC, -, cv, -, iP, -, pS, -, pv, -, iR, -, rv, -, iA, -, av, -,
    iQ, -, qv, -, fv, -, fm, -, sc, -, hv⟩ := h
  rw [← hv]
  exact ⟨rfl, rfl, rfl, rfl⟩

/-- A variant whose depth is absent is never kept, under any configuration. -/
lemma keep_fst_false_of_dp_none {v : Variant} (h : v.dp = none) (cfg : Config) :
    (keep_variant v cfg).1 = false := by
  unfold keep_variant
  split
  · rfl
  · rw [h]
    cases v.qual <;> rfl

/-- When no variant passes the classifier, the kept list is empty. -/
lemma process_rows_kept_nil {vs : List Variant} {cfg : Config}
    (h : ∀ v ∈ vs, (keep_variant v cfg).1 = false) :
    (process_rows vs cfg).1 = [] := by
  induction vs with
  | nil => rfl
  | cons v t ih =>
    have hv := h v (List.mem_cons_self v t)
    dsimp only [process_rows]
    rw [hv]
    simp only [Bool.false_eq_true, if_false]
    exact ih (fun x hx => h x (List.mem_cons_of_mem _ hx))

/-- Classifying a list of variants fills the two row lists with one row per
variant. -/
lemma process_rows_length (vs : List Variant) (cfg : Config) :
    (process_rows vs cfg).1.length + (process_rows vs cfg).2.length = vs.length := by
  induction vs with
  | nil => rfl
  | cons v t ih =>
    simp only [process_rows]
    split
    · simp only [List.length_cons]
      omega
    · simp only [List.length_cons]
      omega

/-!
Claim theorems.
-/

/-- C2: the homopolymer detector accepts exactly the non-empty strings of
identical characters with length at least 3, the dinucleotide detector
accepts exactly the strings of length at least 4 equal to their leading pair
repeated to fill the length (one trailing partial repeat when the length is
odd), and the spec's examples evaluate accordingly. -/
theorem spec_C2 :
    (∀ s : List Char, is_homopolymer s = true ↔ homopolymerSpec s) ∧
    (∀ s : List Char, is_dinuc_repeat s = true ↔ dinucSpec s) ∧
    is_homopolymer (pystr "AAA") = true ∧
    is_homopolymer (pystr "GGGG") = true ∧
    is_dinuc_repeat (pystr "ACAC") = true ∧
    is_dinuc_repeat (pystr "GTGTG") = true ∧
    is_homopolymer (pystr "AG") = false ∧
    is_dinuc_repeat (pystr "AG") = false ∧
    is_homopolymer (pystr "") = false ∧
    is_dinuc_repeat (pystr "") = false ∧
    is_homopolymer (pystr "ACGT") = false ∧
    is_dinuc_repeat (pystr "ACGT") = false := by
  refine ⟨?_, ?_, by decide, by decide, by decide, by decide, by decide,
    by decide, by decide, by decide, by decide, by decide⟩
  · intro s
    unfold is_homopolymer homopolymerSpec
    by_cases hs : s = []
    · simp [hs]
    · rw [if_neg hs]
      simp only [decide_eq_true_eq]
      constructor
      · rintro ⟨h1, h2⟩
        exact ⟨hs, (dedup_length_eq_one_iff.mp h1).2, h2⟩
      · rintro ⟨-, hall, hlen⟩
        exact ⟨dedup_length_eq_one_iff.mpr ⟨hs, hall⟩, hlen⟩
  · intro s
    unfold is_dinuc_repeat dinucSpec
    by_cases hs : s = [] ∨ s.length < 4
    · rw [if_pos hs]
      constructor
      · intro h
        simp at h
      · rintro ⟨h4, -⟩
        rcases hs with rfl | hlt
        · simp at h4
        · omega
    · rw [if_neg hs]
      push_neg at hs
      simp only [decide_eq_true_eq]
      constructor
      · intro h
        exact ⟨hs.2, h⟩
      · rintro ⟨-, h⟩
        exact h

/-- C4: the TMB aggregator divides the kept count by a positive panel size,
degrades to the NaN sentinel (`none`) when the panel size is absent or
non-positive, yields exactly 10 for 12 kept variants over 1.2 Mb, and the
report line renders the sentinel as the not-computable message and any other
value numerically. -/
theorem spec_C4 :
    (∀ (k : Nat) (pm : ℚ), 0 < pm → compute_tmb k (some pm) = some ((k : ℚ) / pm)) ∧
    (∀ (k : Nat) (pm : ℚ), pm ≤ 0 → compute_tmb k (some pm) = none) ∧
    (∀ k : Nat, compute_tmb k none = none) ∧
    compute_tmb 12 (some (6 / 5)) = some 10 ∧
    tmb_line (compute_tmb 12 (some 0)) = pystr "TMB: hesaplanamadi (panel_mb eksik)" ∧
    (∀ t : ℚ, tmb_line (some t) = pystr "TMB (varyant/Mb): " ++ fmtQ t) := by
  refine ⟨?_, ?_, ?_, ?_, ?_, ?_⟩
  · intro k pm h
    simp [compute_tmb, h, ne_of_gt h]
  · intro k pm h
    have hcond : ¬(pm ≠ 0 ∧ 0 < pm) := by
      rintro ⟨-, h2⟩
      exact absurd h (not_le.mpr h2)
    simp [compute_tmb, hcond]
  · intro k
    rfl
  · norm_num [compute_tmb]
  · rfl
  · intro t
    rfl

/-- C4 witness: the aggregator contract applied at the spec's concrete
inputs. -/
theorem spec_C4_witness :
    compute_tmb 12 (some (6 / 5)) = some ((12 : ℚ) / (6 / 5)) ∧
    compute_tmb 7 (some (-1)) = none ∧
    tmb_line (some 10) = pystr "TMB (varyant/Mb): " ++ fmtQ 10 := by
  refine ⟨?_, ?_, ?_⟩
  · exact spec_C4.1 12 (6 / 5) (by norm_num)
  · exact spec_C4.2.1 7 (-1) (by norm_num)
  · exact spec_C4.2.2.2.2.2 10

/-- C5: classification is a partition — the kept rows and dropped rows of a
file together count every parsed variant, both at the classification loop and
through `process_vcf` (malformed lines never reach the variant list). -/
theorem spec_C5 :
    (∀ (vs : List Variant) (cfg : Config),
      (process_rows vs cfg).1.length + (process_rows vs cfg).2.length = vs.length) ∧
    (∀ path file cfg sv r,
      read_vcf_variants path file = .ok sv →
      process_vcf path file cfg = .ok r →
      r.kept.length + r.dropped.length = sv.2.length) := by
  refine ⟨process_rows_length, ?_⟩
  intro path file cfg sv r hread hproc
  unfold process_vcf at hproc
  rw [hread] at hproc
  cases hproc
  exact process_rows_length sv.2 cfg

/-- C5 witness: the partition count applied to a concrete one-variant file
(its single record fails the PASS requirement, so 0 kept + 1 dropped = 1
parsed). -/
theorem spec_C5_witness :
    (ProcessResult.mk (pystr "x.vcf") []
      [⟨⟨pystr "x.vcf", pystr "1", 100, pystr "A", pystr "C", none, pystr "q",
          none, none, none⟩, false, pystr "FILTER!=PASS"⟩] none).kept.length +
    (ProcessResult.mk (pystr "x.vcf") []
      [⟨⟨pystr "x.vcf", pystr "1", 100, pystr "A", pystr "C", none, pystr "q",
          none, none, none⟩, false, pystr "FILTER!=PASS"⟩] none).dropped.length =
    ((pystr "x.vcf",
      [⟨pystr "x.vcf", pystr "1", 100, pystr "A", pystr "C", none, pystr "q",
         none, none, none⟩]) : List Char × List Variant).2.length :=
  spec_C5.2 (pystr "d/x.vcf")
    (some [pystr "#CHROM\tPOS\tID\tREF\tALT\tQUAL\tFILTER",
           pystr "1\t100\t.\tA\tC\t.\tq"])
    cfgPanelZero
    (pystr "x.vcf",
      [⟨pystr "x.vcf", pystr "1", 100, pystr "A", pystr "C", none, pystr "q",
         none, none, none⟩])
    (ProcessResult.mk (pystr "x.vcf") []
      [⟨⟨pystr "x.vcf", pystr "1", 100, pystr "A", pystr "C", none, pystr "q",
          none, none, none⟩, false, pystr "FILTER!=PASS"⟩] none)
    (by decide) (by decide)

/-- C8 counterexample: the input `fmt="GT:DP"`, `sample="0/1:x"` makes the
Python `int(dp)` raise (a parse failure), yet the returned result still
carries `GT="0/1"` — it is not the all-absent result the claim demands. -/
theorem spec_C8_cex :
    parseRaises (some (pystr "GT:DP")) (some (pystr "0/1:x")) = true ∧
    parse_format (some (pystr "GT:DP")) (some (pystr "0/1:x")) ≠ FormatResult.init ∧
    (parse_format (some (pystr "GT:DP")) (some (pystr "0/1:x"))).GT = some (pystr "0/1") := by
  decide

/-- C8 (amended): the decoder is a total function (no error propagates), and
on a parse failure every field assigned after the failing `int(dp)` — depth,
allele-depth list, max alternate depth, fraction — is absent, while the
genotype, assigned before it, keeps whatever the key/value zip associated to
`GT`. -/
theorem spec_C8 :
    ∀ fmt sample, parseRaises fmt sample = true →
      (parse_format fmt sample).DP = none ∧
      (parse_format fmt sample).CLCAD2 = none ∧
      (parse_format fmt sample).ALT_AD_MAX = none ∧
      (parse_format fmt sample).VAF = none ∧
      (parse_format fmt sample).GT =
        dictGet (List.zip (pySplitColon fmt) (pySplitColon sample)) (pystr "GT") := by
  intro fmt sample h
  unfold parseRaises at h
  cases hdp : dictGet (List.zip (pySplitColon fmt) (pySplitColon sample)) (pystr "DP") with
  | none =>
    simp [hdp] at h
  | some d =>
    simp only [hdp] at h
    by_cases hdot : d = pystr "."
    · simp [hdot] at h
    · rw [if_neg hdot] at h
      cases hint : pyInt d with
      | some z =>
        rw [hint] at h
        simp at h
      | none =>
        simp [parse_format, hdp, hdot, hint, FormatResult.init]

/-- C8 witness: the amended contract applied at the concrete failing input. -/
theorem spec_C8_witness :
    (parse_format (some (pystr "GT:DP")) (some (pystr "0/1:x"))).DP = none ∧
    (parse_format (some (pystr "GT:DP")) (some (pystr "0/1:x"))).CLCAD2 = none ∧
    (parse_format (some (pystr "GT:DP")) (some (pystr "0/1:x"))).ALT_AD_MAX = none ∧
    (parse_format (some (pystr "GT:DP")) (some (pystr "0/1:x"))).VAF = none ∧
    (parse_format (some (pystr "GT:DP")) (some (pystr "0/1:x"))).GT =
      dictGet (List.zip (pySplitColon (some (pystr "GT:DP")))
        (pySplitColon (some (pystr "0/1:x")))) (pystr "GT") :=
  spec_C8 (some (pystr "GT:DP")) (some (pystr "0/1:x")) (by decide)

/-- C9: the batch driver produces exactly one summary row per input file, in
order, each row depending only on its own file, and a per-file failure is
converted into a row carrying the error text with absent counts and TMB —
it never disturbs the rows of the other files. -/
theorem spec_C9 :
    (∀ cfg inputs, (main_loop cfg inputs).length = inputs.length) ∧
    (∀ cfg inputs (i : Nat),
      (main_loop cfg inputs)[i]? = (inputs[i]?).map (summaryRowFor cfg)) ∧
    (∀ cfg path file e, process_vcf path file cfg = .error e →
      summaryRowFor cfg (path, file) =
        ⟨basename path, none, none, none, some (errText path e)⟩) := by
  refine ⟨?_, ?_, ?_⟩
  · intro cfg inputs
    simp [main_loop]
  · intro cfg inputs i
    simp [main_loop]
  · intro cfg path file e h
    simp [summaryRowFor, h]

/-- C3: the decoder's variant allele fraction equals the maximum alternate
allele depth divided by the depth exactly when the parsed depth is positive
and at least one allele-depth entry after the first is a numeric string, and
is absent otherwise; on the spec's example (depth 120, allele depths "60,40")
the maximum alternate depth is 40 and the fraction 40/120. -/
theorem spec_C3 :
    (∀ fmt sample,
      ((parse_format fmt sample).VAF.isSome ↔
        ((∃ d, (parse_format fmt sample).DP = some d ∧ 0 < d) ∧
          altDepthsSpec (adStringOf fmt sample) ≠ []))) ∧
    (∀ fmt sample d m,
      (parse_format fmt sample).DP = some d → 0 < d →
      (altDepthsSpec (adStringOf fmt sample)).max? = some m →
      (parse_format fmt sample).VAF = some ((m : ℚ) / (d : ℚ)) ∧
        (parse_format fmt sample).ALT_AD_MAX = some m) ∧
    parse_format (some (pystr "DP:CLCAD2")) (some (pystr "120:60,40")) =
      ⟨none, some 120, some (pystr "60,40"), some 40,
        some ((((40 : ℤ) : ℚ)) / (((120 : ℤ) : ℚ)))⟩ := by
  refine ⟨?_, ?_, ?_⟩
  · intro fmt sample
    rcases parse_format_cases fmt sample with ⟨dp, heq⟩ | heq
    · rw [heq, parseFormatRest_VAF, parseFormatRest_DP]
      cases dp with
      | none =>
        cases hmax : (altDepthsSpec (adStringOf fmt sample)).max? <;> simp
      | some d =>
        cases hmax : (altDepthsSpec (adStringOf fmt sample)).max? with
        | none =>
          rw [List.max?_eq_none_iff] at hmax
          simp [hmax]
        | some m =>
          have hne : altDepthsSpec (adStringOf fmt sample) ≠ [] := by
            intro hnil
            rw [hnil] at hmax
            simp at hmax
          by_cases hdpos : 0 < d
          · simp [hne, hdpos, ne_of_gt hdpos]
          · have hcond : ¬(d ≠ 0 ∧ 0 < d) := fun hc => hdpos hc.2
            simp [hne, hdpos, hcond]
    · rw [heq]
      simp [FormatResult.init]
  · intro fmt sample d m hDP hd hmax
    rcases parse_format_cases fmt sample with ⟨dp, heq⟩ | heq
    · rw [heq, parseFormatRest_DP] at hDP
      subst hDP
      rw [heq, parseFormatRest_VAF, parseFormatRest_ALT, hmax]
      dsimp only
      rw [if_pos ⟨ne_of_gt hd, hd⟩]
      exact ⟨rfl, rfl⟩
    · rw [heq] at hDP
      simp [FormatResult.init] at hDP
  · rfl

/-- C1: the classifier realises exactly the spec's ordered, short-circuiting
rule list — its result is always determined by the first failing rule (keep
with "OK" when none fails) — and in particular a record that fails both the
PASS requirement and the quality threshold reports "FILTER!=PASS". -/
theorem spec_C1 :
    (∀ v cfg, keep_variant v cfg = classifySpec v cfg) ∧
    (∀ v cfg (q : ℚ),
      cfg.require_pass = true → v.filt ≠ pystr "." → v.filt ≠ pystr "PASS" →
      v.qual = some q → q < cfg.qual_min →
      keep_variant v cfg = (false, pystr "FILTER!=PASS")) := by
  constructor
  · intro v cfg
    unfold keep_variant classifySpec ruleListSpec
    by_cases h1 : cfg.require_pass = true ∧ v.filt ≠ pystr "." ∧ v.filt ≠ pystr "PASS"
    · rw [if_pos h1]
      simp [List.find?, h1]
    · rw [if_neg h1]
      cases hq : v.qual with
      | none => simp [List.find?, h1, hq]
      | some q =>
        cases hd : v.dp with
        | none => simp [List.find?, h1, hq, hd]
        | some d =>
          cases hA : v.ad_alt_max with
          | none => simp [List.find?, h1, hq, hd, hA]
          | some a =>
            cases hV : v.vaf with
            | none => simp [List.find?, h1, hq, hd, hA, hV]
            | some w =>
              by_cases h6 : q < cfg.qual_min
              · simp [List.find?, h1, hq, hd, hA, hV, h6]
              · by_cases h7 : d < cfg.dp_min
                · simp [List.find?, h1, hq, hd, hA, hV, h6, h7]
                · by_cases h8 : a < cfg.alt_min
                  · simp [List.find?, h1, hq, hd, hA, hV, h6, h7, h8]
                  · by_cases h9 : w < cfg.vaf_min
                    · simp [List.find?, h1, hq, hd, hA, hV, h6, h7, h8, h9]
                    · by_cases h10 : cfg.drop_str_artifacts = true ∧
                        looks_like_str_artifact v.ref v.alt = true
                      · simp [List.find?, h1, hq, hd, hA, hV, h6, h7, h8, h9, h10]
                      · simp [List.find?, h1, hq, hd, hA, hV, h6, h7, h8, h9, h10]
  · intro v cfg q h1 h2 h3 _ _
    unfold keep_variant
    rw [if_pos ⟨h1, h2, h3⟩]

/-- C1 witness: a record with a non-PASS filter and a quality below the
threshold is dropped with reason "FILTER!=PASS". -/
theorem spec_C1_witness :
    keep_variant
      ⟨pystr "s", pystr "1", 1, pystr "A", pystr "C", some 10, pystr "q10",
        some 5, some 1, none⟩ cfgPanelZero = (false, pystr "FILTER!=PASS") :=
  spec_C1.2
    ⟨pystr "s", pystr "1", 1, pystr "A", pystr "C", some 10, pystr "q10",
      some 5, some 1, none⟩ cfgPanelZero 10
    rfl (by decide) (by decide) rfl (by decide)

/-- C9 witness: a missing file produces the error row for that file. -/
theorem spec_C9_witness :
    summaryRowFor defaultConfig (pystr "m.vcf", none) =
      ⟨basename (pystr "m.vcf"), none, none, none,
        some (errText (pystr "m.vcf") ReadErr.fileNotFound)⟩ :=
  spec_C9.2.2 defaultConfig (pystr "m.vcf") none ReadErr.fileNotFound rfl

/-- C6 counterexample: a header line carrying all six claim-mandatory columns
(chromosome, position, reference, alternate, quality, filter) but no `ID`
column still fails with a FormatError — the code's `required` list also
demands `ID`, so "succeeding otherwise" is false. -/
theorem spec_C6_cex :
    read_vcf_variants (pystr "a.vcf")
        (some [pystr "#CHROM\tPOS\tREF\tALT\tQUAL\tFILTER"]) =
      .error (.formatError
        (pystr "Beklenen VCF sutunlari bulunamadi (#CHROM .. QUAL .. FILTER).")) ∧
    ([pystr "CHROM", pystr "POS", pystr "REF", pystr "ALT", pystr "QUAL",
        pystr "FILTER"].all
      (fun c => (headerColsOf (pystr "#CHROM\tPOS\tREF\tALT\tQUAL\tFILTER")).contains c))
      = true := by
  decide

/-- C6 (amended): the reader fails with FileNotFoundError exactly when the
file is missing, with a FormatError when no `#CHROM` header line exists, and,
once a header is found, fails with a FormatError exactly when one of the
seven mandatory columns CHROM, POS, ID, REF, ALT, QUAL, FILTER is absent from
it, succeeding otherwise. -/
theorem spec_C6 :
    (∀ path, read_vcf_variants path none = .error .fileNotFound) ∧
    (∀ path lines, read_vcf_variants path (some lines) ≠ .error .fileNotFound) ∧
    (∀ path lines, findHeader lines = none →
      read_vcf_variants path (some lines) =
        .error (.formatError (pystr "VCF basligi (#CHROM ...) bulunamadi."))) ∧
    (∀ path lines hline, findHeader lines = some hline →
      (¬ requiredCols.all (fun c => (headerColsOf hline).contains c) = true →
        read_vcf_variants path (some lines) =
          .error (.formatError
            (pystr "Beklenen VCF sutunlari bulunamadi (#CHROM .. QUAL .. FILTER).")))
      ∧
      (requiredCols.all (fun c => (headerColsOf hline).contains c) = true →
        ∃ sv, read_vcf_variants path (some lines) = .ok sv)) := by
  refine ⟨?_, ?_, ?_, ?_⟩
  · intro path
    rfl
  · intro path lines hcontra
    rw [read_vcf_shape] at hcontra
    cases hf : findHeader lines with
    | none =>
      rw [hf] at hcontra
      simp at hcontra
    | some hline =>
      rw [hf] at hcontra
      dsimp only at hcontra
      by_cases hreq : requiredCols.all (fun c => (headerColsOf hline).contains c) = true
      · rw [if_pos hreq] at hcontra
        simp at hcontra
      · rw [if_neg hreq] at hcontra
        simp at hcontra
  · intro path lines hf
    rw [read_vcf_shape, hf]
  · intro path lines hline hf
    constructor
    · intro hreq
      rw [read_vcf_shape, hf]
      dsimp only
      rw [if_neg hreq]
    · intro hreq
      rw [read_vcf_shape, hf]
      dsimp only
      rw [if_pos hreq]
      exact ⟨_, rfl⟩

/-- C6 witness: the reader's failure and success modes at concrete files. -/
theorem spec_C6_witness :
    read_vcf_variants (pystr "x.vcf") none = .error .fileNotFound ∧
    read_vcf_variants (pystr "x.vcf") (some [pystr "nohdr"]) =
      .error (.formatError (pystr "VCF basligi (#CHROM ...) bulunamadi.")) ∧
    (∃ sv, read_vcf_variants (pystr "x.vcf")
      (some [pystr "#CHROM\tPOS\tID\tREF\tALT\tQUAL\tFILTER"]) = .ok sv) ∧
    read_vcf_variants (pystr "x.vcf")
        (some [pystr "#CHROM\tPOS\tREF\tALT\tQUAL\tFILTER"]) =
      .error (.formatError
        (pystr "Beklenen VCF sutunlari bulunamadi (#CHROM .. QUAL .. FILTER).")) := by
  refine ⟨spec_C6.1 (pystr "x.vcf"),
    spec_C6.2.2.1 (pystr "x.vcf") [pystr "nohdr"] (by decide),
    (spec_C6.2.2.2 (pystr "x.vcf") [pystr "#CHROM\tPOS\tID\tREF\tALT\tQUAL\tFILTER"]
      (pystr "#CHROM\tPOS\tID\tREF\tALT\tQUAL\tFILTER") (by decide)).2 (by decide),
    (spec_C6.2.2.2 (pystr "x.vcf") [pystr "#CHROM\tPOS\tREF\tALT\tQUAL\tFILTER"]
      (pystr "#CHROM\tPOS\tREF\tALT\tQUAL\tFILTER") (by decide)).1 (by decide)⟩

/-- C7 counterexample: a data line with eight fields under a seven-column
header — its field count does not match the header, yet the reader yields a
record for it instead of skipping it. -/
theorem spec_C7_cex :
    ((splitOnChar '\t' (rstripNl (pystr "1\t5\t.\tA\tC\t99\tPASS\textra"))).length ≠
      (headerColsOf (pystr "#CHROM\tPOS\tID\tREF\tALT\tQUAL\tFILTER")).length) ∧
    read_vcf_variants (pystr "a.vcf")
        (some [pystr "#CHROM\tPOS\tID\tREF\tALT\tQUAL\tFILTER",
               pystr "1\t5\t.\tA\tC\t99\tPASS\textra"]) =
      .ok (pystr "a.vcf",
        [⟨pystr "a.vcf", pystr "1", 5, pystr "A", pystr "C", some 99, pystr "PASS",
           none, none, none⟩]) := by
  decide

set_option maxHeartbeats 1600000 in
/-- C7 (amended): after the header, the reader yields a record for every
non-comment line from which each referenced column can be extracted — in
particular for any line with at least as many fields as the header whose
position entry parses as an integer, even when the field count exceeds the
header's — and silently skips a line whose position entry fails integer
parsing or whose fields do not reach a referenced column index; no error is
surfaced either way, since reading succeeds whenever the header validates. -/
theorem spec_C7 :
    (∀ hc fb line,
      requiredCols.all (fun c => hc.contains c) = true →
      hc.length ≤ (splitOnChar '\t' (rstripNl line)).length →
      (∀ i s, colIdx hc (pystr "POS") = some i →
        (splitOnChar '\t' (rstripNl line))[i]? = some s → (pyInt s).isSome) →
      (parseDataLine hc (sampleNameOf hc) fb line).isSome) ∧
    (∀ hc sn fb line i s,
      colIdx hc (pystr "POS") = some i →
      (splitOnChar '\t' (rstripNl line))[i]? = some s →
      pyInt s = none →
      parseDataLine hc sn fb line = none) ∧
    (∀ hc sn fb line i,
      colIdx hc (pystr "CHROM") = some i →
      (splitOnChar '\t' (rstripNl line))[i]? = none →
      parseDataLine hc sn fb line = none) ∧
    (∀ path lines hline,
      findHeader lines = some hline →
      requiredCols.all (fun c => (headerColsOf hline).contains c) = true →
      ∃ sv, read_vcf_variants path (some lines) = .ok sv) := by
  refine ⟨?_, ?_, ?_, ?_⟩
  · intro hc fb line hreq hlen hpos
    have hmem : ∀ c ∈ requiredCols, c ∈ hc := by
      intro c hcr
      exact contains_true_mem (List.all_eq_true.mp hreq c hcr)
    have hget : ∀ name : List Char, name ∈ hc →
        ∃ i v, colIdx hc name = some i ∧
          (splitOnChar '\t' (rstripNl line))[i]? = some v := by
      intro name hn
      obtain ⟨i, hi⟩ := Option.isSome_iff_exists.mp (colIdx_isSome hn)
      have hlt : i < (splitOnChar '\t' (rstripNl line)).length :=
        lt_of_lt_of_le (colIdx_lt hi) hlen
      cases hg : (splitOnChar '\t' (rstripNl line))[i]? with
      | none =>
        rw [List.getElem?_eq_none_iff] at hg
        omega
      | some v => exact ⟨i, v, hi, hg⟩
    obtain ⟨iC, vC, hiC, hgC⟩ := hget _ (hmem (pystr "CHROM") (by simp [requiredCols]))
    obtain ⟨iP, vP, hiP, hgP⟩ := hget _ (hmem (pystr "POS") (by simp [requiredCols]))
    obtain ⟨iR, vR, hiR, hgR⟩ := hget _ (hmem (pystr "REF") (by simp [requiredCols]))
    obtain ⟨iA, vA, hiA, hgA⟩ := hget _ (hmem (pystr "ALT") (by simp [requiredCols]))
    obtain ⟨iQ, vQ, hiQ, hgQ⟩ := hget _ (hmem (pystr "QUAL") (by simp [requiredCols]))
    obtain ⟨iF, vF, hiF, hgF⟩ := hget _ (hmem (pystr "FILTER") (by simp [requiredCols]))
    obtain ⟨pz, hpz⟩ := Option.isSome_iff_exists.mp (hpos iP vP hiP hgP)
    cases hfm : colIdx hc (pystr "FORMAT") with
    | none =>
      cases hsn : sampleNameOf hc with
      | none =>
        unfold parseDataLine
        simp only [hiC, hgC, hiP, hgP, hpz, hiR, hgR, hiA, hgA, hiQ, hgQ,
          hiF, hgF, hfm, hsn, Option.some_bind, Option.map_some', Option.isSome_some]
      | some sn =>
        have hsmem : sn ∈ hc := by
          unfold sampleNameOf at hsn
          cases hidx : hc.findIdx? (fun c => c == pystr "FORMAT") with
          | none => rw [hidx] at hsn; cases hsn
          | some k =>
            rw [hidx] at hsn
            dsimp only at hsn
            by_cases hk : k + 1 < hc.length
            · rw [if_pos hk] at hsn
              exact List.mem_of_getLast?_eq_some hsn
            · rw [if_neg hk] at hsn
              cases hsn
        obtain ⟨iS, vS, hiS, hgS⟩ := hget sn hsmem
        unfold parseDataLine
        simp only [hiC, hgC, hiP, hgP, hpz, hiR, hgR, hiA, hgA, hiQ, hgQ,
          hiF, hgF, hfm, hsn, hiS, hgS, Option.some_bind, Option.map_some',
          Option.isSome_some]
    | some iFm =>
      have hltFm : iFm < (splitOnChar '\t' (rstripNl line)).length :=
        lt_of_lt_of_le (colIdx_lt hfm) hlen
      obtain ⟨vFm, hgFm⟩ : ∃ v, (splitOnChar '\t' (rstripNl line))[iFm]? = some v := by
        cases hg : (splitOnChar '\t' (rstripNl line))[iFm]? with
        | none =>
          rw [List.getElem?_eq_none_iff] at hg
          omega
        | some v => exact ⟨v, rfl⟩
      cases hsn : sampleNameOf hc with
      | none =>
        unfold parseDataLine
        simp only [hiC, hgC, hiP, hgP, hpz, hiR, hgR, hiA, hgA, hiQ, hgQ,
          hiF, hgF, hfm, hgFm, hsn, Option.some_bind, Option.map_some',
          Option.isSome_some]
      | some sn =>
        have hsmem : sn ∈ hc := by
          unfold sampleNameOf at hsn
          cases hidx : hc.findIdx? (fun c => c == pystr "FORMAT") with
          | none => rw [hidx] at hsn; cases hsn
          | some k =>
            rw [hidx] at hsn
            dsimp only at hsn
            by_cases hk : k + 1 < hc.length
            · rw [if_pos hk] at hsn
              exact List.mem_of_getLast?_eq_some hsn
            · rw [if_neg hk] at hsn
              cases hsn
        obtain ⟨iS, vS, hiS, hgS⟩ := hget sn hsmem
        unfold parseDataLine
        simp only [hiC, hgC, hiP, hgP, hpz, hiR, hgR, hiA, hgA, hiQ, hgQ,
          hiF, hgF, hfm, hgFm, hsn, hiS, hgS, Option.some_bind, Option.map_some',
          Option.isSome_some]
  · intro hc sn fb line i s hiP hgP hbad
    unfold parseDataLine
    cases hiC : colIdx hc (pystr "CHROM") with
    | none => simp only [hiC, Option.none_bind]
    | some ic =>
      cases hgc : (splitOnChar '\t' (rstripNl line))[ic]? with
      | none => simp only [hiC, hgc, Option.some_bind, Option.none_bind]
      | some cv => simp only [hiC, hgc, hiP, hgP, hbad, Option.some_bind,
          Option.none_bind]
  · intro hc sn fb line i hiC hgC
    unfold parseDataLine
    simp only [hiC, hgC, Option.some_bind, Option.none_bind]
  · intro path lines hline hf hreq
    rw [read_vcf_shape, hf]
    dsimp only
    rw [if_pos hreq]
    exact ⟨_, rfl⟩

/-- C7 witness: the amended reader behaviour at concrete lines — an
extra-field line is extracted, a line with an unparsable position or a
missing referenced column is skipped, and a validated header reads without
error. -/
theorem spec_C7_witness :
    (parseDataLine (headerColsOf (pystr "#CHROM\tPOS\tID\tREF\tALT\tQUAL\tFILTER"))
      (sampleNameOf (headerColsOf (pystr "#CHROM\tPOS\tID\tREF\tALT\tQUAL\tFILTER")))
      (pystr "a.vcf") (pystr "1\t5\t.\tA\tC\t99\tPASS\textra")).isSome ∧
    parseDataLine (headerColsOf (pystr "#CHROM\tPOS\tID\tREF\tALT\tQUAL\tFILTER"))
      none (pystr "a.vcf") (pystr "1\tbad\t.\tA\tC\t99\tPASS") = none ∧
    parseDataLine [pystr "X", pystr "CHROM"] none (pystr "a.vcf") (pystr "x") = none ∧
    (∃ sv, read_vcf_variants (pystr "a.vcf")
      (some [pystr "#CHROM\tPOS\tID\tREF\tALT\tQUAL\tFILTER",
             pystr "1\tbad\t.\tA\tC\t99\tPASS"]) = .ok sv) := by
  refine ⟨spec_C7.1 _ (pystr "a.vcf") (pystr "1\t5\t.\tA\tC\t99\tPASS\textra")
      (by decide) (by decide) ?_,
    spec_C7.2.1 _ none (pystr "a.vcf") (pystr "1\tbad\t.\tA\tC\t99\tPASS") 1
      (pystr "bad") (by decide) (by decide) (by decide),
    spec_C7.2.2.1 [pystr "X", pystr "CHROM"] none (pystr "a.vcf") (pystr "x") 1
      (by decide) (by decide),
    spec_C7.2.2.2 (pystr "a.vcf") _ (pystr "#CHROM\tPOS\tID\tREF\tALT\tQUAL\tFILTER")
      (by decide) (by decide)⟩
  intro i s hi hs
  have hi1 : i = 1 := by
    have : colIdx (headerColsOf (pystr "#CHROM\tPOS\tID\tREF\tALT\tQUAL\tFILTER"))
        (pystr "POS") = some 1 := by decide
    rw [this] at hi
    exact (Option.some.inj hi).symm
  subst hi1
  have hs5 : s = pystr "5" := by
    have : (splitOnChar '\t' (rstripNl (pystr "1\t5\t.\tA\tC\t99\tPASS\textra")))[1]?
        = some (pystr "5") := by decide
    rw [this] at hs
    exact (Option.some.inj hs).symm
  subst hs5
  decide

/-- C3 witness: the VAF contract applied at the spec's concrete decoder
input. -/
theorem spec_C3_witness :
    (parse_format (some (pystr "DP:CLCAD2")) (some (pystr "120:60,40"))).VAF =
      some ((((40 : ℤ) : ℚ)) / (((120 : ℤ) : ℚ))) ∧
    (parse_format (some (pystr "DP:CLCAD2")) (some (pystr "120:60,40"))).ALT_AD_MAX =
      some 40 :=
  spec_C3.2.1 (some (pystr "DP:CLCAD2")) (some (pystr "120:60,40")) 120 40
    (by decide) (by decide) (by decide)

/-- C10: for a file whose header lacks a FORMAT column or has no column after
it, the reader falls back to the file's basename as sample identifier and
every extracted record has depth, maximum alternate depth and fraction
absent; consequently every record is dropped under every configuration, so
the kept list — and with it the kept count — is empty. -/
theorem spec_C10 :
    ∀ path lines hline,
      findHeader lines = some hline →
      ((pystr "FORMAT") ∉ headerColsOf hline ∨
        (∀ i, (headerColsOf hline).findIdx? (fun c => c == pystr "FORMAT") = some i →
          ¬(i + 1 < (headerColsOf hline).length))) →
      (∀ sv, read_vcf_variants path (some lines) = .ok sv →
        sv.1 = basename path ∧
        ∀ v ∈ sv.2, v.dp = none ∧ v.ad_alt_max = none ∧ v.vaf = none ∧
          ∀ cfg, (keep_variant v cfg).1 = false) ∧
      (∀ cfg r, process_vcf path (some lines) cfg = .ok r → r.kept = []) := by
  intro path lines hline hf hcond
  have hsn : sampleNameOf (headerColsOf hline) = none := sampleNameOf_eq_none hcond
  have hvars : ∀ sv, read_vcf_variants path (some lines) = .ok sv →
      sv.1 = basename path ∧
      ∀ v ∈ sv.2, v.dp = none ∧ v.ad_alt_max = none ∧ v.vaf = none ∧
        ∀ cfg, (keep_variant v cfg).1 = false := by
    intro sv hsv
    rw [read_vcf_shape, hf] at hsv
    dsimp only at hsv
    by_cases hreq : requiredCols.all (fun c => (headerColsOf hline).contains c) = true
    · rw [if_pos hreq] at hsv
      have hsv' := Except.ok.inj hsv
      constructor
      · rw [← hsv']
        simp [hsn, pyOr]
      · intro v hv
        rw [← hsv'] at hv
        simp only [hsn] at hv
        obtain ⟨l, hl, hfl⟩ := List.mem_filterMap.mp hv
        by_cases hskip : l = [] ∨ (pystr "#").isPrefixOf l = true
        · rw [if_pos hskip] at hfl
          cases hfl
        · rw [if_neg hskip] at hfl
          obtain ⟨hsample, hdp, had, hvaf⟩ := parseDataLine_sampleNone hfl
          exact ⟨hdp, had, hvaf, fun cfg => keep_fst_false_of_dp_none hdp cfg⟩
    · rw [if_neg hreq] at hsv
      cases hsv
  refine ⟨hvars, ?_⟩
  intro cfg r hr
  unfold process_vcf at hr
  cases hread : read_vcf_variants path (some lines) with
  | error e =>
    rw [hread] at hr
    cases hr
  | ok sv =>
    rw [hread] at hr
    dsimp only at hr
    have hr' := Except.ok.inj hr
    rw [← hr']
    exact process_rows_kept_nil
      (fun v hv => ((hvars sv hread).2 v hv).2.2.2 cfg)

/-- C10 witness: a concrete FORMAT-less file — sample falls back to the
basename, the single record has the three fields absent and is never kept,
and processing keeps nothing. -/
theorem spec_C10_witness :
    ((pystr "x.vcf",
      [⟨pystr "x.vcf", pystr "1", 100, pystr "A", pystr "C", none, pystr "PASS",
         none, none, none⟩]) : List Char × List Variant).1 = basename (pystr "d/x.vcf") ∧
    (∀ v ∈ ((pystr "x.vcf",
      [⟨pystr "x.vcf", pystr "1", 100, pystr "A", pystr "C", none, pystr "PASS",
         none, none, none⟩]) : List Char × List Variant).2,
      v.dp = none ∧ v.ad_alt_max = none ∧ v.vaf = none ∧
        ∀ cfg, (keep_variant v cfg).1 = false) ∧
    (ProcessResult.mk (pystr "x.vcf") []
      [⟨⟨pystr "x.vcf", pystr "1", 100, pystr "A", pystr "C", none, pystr "PASS",
          none, none, none⟩, false, pystr "QUAL_missing"⟩] none).kept = [] := by
  have happ := spec_C10 (pystr "d/x.vcf")
    [pystr "#CHROM\tPOS\tID\tREF\tALT\tQUAL\tFILTER",
     pystr "1\t100\t.\tA\tC\t.\tPASS"]
    (pystr "#CHROM\tPOS\tID\tREF\tALT\tQUAL\tFILTER")
    (by decide) (Or.inl (by decide))
  exact ⟨(happ.1 _ (by decide)).1, (happ.1 _ (by decide)).2,
    happ.2 cfgPanelZero _ (by decide)⟩

end TMB
